import Mathlib

/-
Verification of the Departure Acquisition and Adaptive Polling Engine of the
Lilygo T5 bus-timetable display firmware.

The definitions below are a shallow embedding of the firmware sources:
  - src/include/display.h        (struct BusDeparture)
  - src/include/config.h         (the scheduling and quota constants)
  - src/src/nextbus_api.cpp      (NextbusAPIClient: fetch loop, sort, dedup,
                                  catchability filter, time parsing)
  - src/src/transport_api.cpp    (TransportAPIClient: fetch loop with the
                                  early-stop heuristic, sort, dedup, filter,
                                  truncation, time parsing)
  - src/src/main.cpp             (decrementDepartureCountdowns,
                                  resetApiCounterIfNewDay,
                                  calculateOptimalRefreshInterval)
C `int` values are modelled as `Int`, C `bool` as `Bool`.  Network transfer
and wire parsing are outside the engine: a provider response is modelled as
the list of `BusDeparture` candidates its parser extracts for one stop.
-/

-- ===========================================================================
-- Constants from src/include/config.h
-- ===========================================================================

/-- ACTIVE_HOURS_START: 6 AM, screen wakes (config.h). -/
def ACTIVE_HOURS_START : Int := 6

/-- ACTIVE_HOURS_END: 11 PM, screen sleeps (config.h). -/
def ACTIVE_HOURS_END : Int := 23

/-- BUS_DATA_REFRESH_INTERVAL_MS: default 10-minute refresh cadence (config.h). -/
def BUS_DATA_REFRESH_INTERVAL_MS : Nat := 600000

/-- API_DAILY_LIMIT: with USE_NEXTBUS_API true this is NEXTBUS_API_DAILY_LIMIT
(config.h). -/
def API_DAILY_LIMIT : Int := 1000

-- ===========================================================================
-- Data model (src/include/display.h, src/include/transport_api.h)
-- ===========================================================================

/-- Direction enum from transport_api.h. -/
inductive Direction where
  | TO_CHELTENHAM
  | TO_CHURCHDOWN
deriving DecidableEq, Repr

/-- struct BusDeparture from display.h. -/
structure BusDeparture where
  busNumber : String
  stopName : String
  destination : String
  departureTime : String
  minutesUntilDeparture : Int
  walkingTimeMinutes : Int
  isLive : Bool
  statusText : String
deriving DecidableEq, Repr

/-- The leave-in time computed throughout both fetchDepartures implementations:
minutesUntilDeparture - walkingTimeMinutes. -/
def leaveIn (d : BusDeparture) : Int :=
  d.minutesUntilDeparture - d.walkingTimeMinutes

-- ===========================================================================
-- The in-place exchange sort used by both clients
-- (nextbus_api.cpp lines 254-267 and 318-330, transport_api.cpp lines 226-240)
--
-- The C loops are, for i ascending, an inner pass over j > i that swaps
-- a[i] and a[j] whenever leaveIn(a[j]) < leaveIn(a[i]).  Functionally the
-- inner pass threads a running current element x through the tail: when the
-- visited element y beats x, y becomes the new current and x is left at y's
-- position, otherwise y stays put.  After the pass, position i holds the
-- minimum.  The outer loop is rendered with the loop-count fuel l.length.
-- ===========================================================================

/-- One inner pass of the exchange sort: returns the minimum-leaveIn element
together with the remaining elements in their post-pass positions. -/
def innerPass (x : BusDeparture) : List BusDeparture → BusDeparture × List BusDeparture
  | [] => (x, [])
  | y :: ys =>
    if leaveIn y < leaveIn x then
      let p := innerPass y ys
      (p.1, x :: p.2)
    else
      let p := innerPass x ys
      (p.1, y :: p.2)

theorem innerPass_length (l : List BusDeparture) :
    ∀ x, ((innerPass x l).2).length = l.length := by
  induction l with
  | nil => intro x; rfl
  | cons y ys ih =>
    intro x
    simp only [innerPass]
    split
    · simp [ih]
    · simp [ih]

theorem innerPass_perm (l : List BusDeparture) :
    ∀ x, ((innerPass x l).1 :: (innerPass x l).2).Perm (x :: l) := by
  induction l with
  | nil => intro x; exact List.Perm.refl _
  | cons y ys ih =>
    intro x
    simp only [innerPass]
    split
    · exact (List.Perm.swap x (innerPass y ys).1 (innerPass y ys).2).trans
        ((ih y).cons x)
    · exact ((List.Perm.swap y (innerPass x ys).1 (innerPass x ys).2).trans
        (((ih x).cons y))).trans (List.Perm.swap x y ys)

/-- The outer loop of the exchange sort, fuelled by the iteration count. -/
def sortGo : Nat → List BusDeparture → List BusDeparture
  | 0, l => l
  | _ + 1, [] => []
  | fuel + 1, x :: xs =>
    (innerPass x xs).1 :: sortGo fuel (innerPass x xs).2

/-- Sort by ascending leaveIn, as both fetchDepartures implementations do. -/
def leaveInSort (l : List BusDeparture) : List BusDeparture :=
  sortGo l.length l

theorem sortGo_perm : ∀ (fuel : Nat) (l : List BusDeparture),
    l.length ≤ fuel → (sortGo fuel l).Perm l := by
  intro fuel
  induction fuel with
  | zero => intro l _; exact List.Perm.refl _
  | succ n ih =>
    intro l hl
    match l with
    | [] => exact List.Perm.refl _
    | x :: xs =>
      simp only [sortGo]
      have h2 : ((innerPass x xs).2).length ≤ n := by
        rw [innerPass_length]
        simpa using hl
      exact (((ih _ h2).cons (innerPass x xs).1).trans (innerPass_perm xs x))

theorem leaveInSort_perm (l : List BusDeparture) : (leaveInSort l).Perm l :=
  sortGo_perm l.length l (Nat.le_refl _)

theorem mem_leaveInSort {d : BusDeparture} {l : List BusDeparture}
    (h : d ∈ leaveInSort l) : d ∈ l :=
  (leaveInSort_perm l).mem_iff.mp h

theorem leaveInSort_length (l : List BusDeparture) :
    (leaveInSort l).length = l.length :=
  (leaveInSort_perm l).length_eq

-- ===========================================================================
-- Deduplication (nextbus_api.cpp lines 269-295, transport_api.cpp 242-267)
-- ===========================================================================

/-- The nextbus duplicate test (nextbus_api.cpp 276-281): same route, same
stop, and absolute time difference within 1 minute. -/
def nextbusIsDuplicate (dI dJ : BusDeparture) : Bool :=
  dI.busNumber == dJ.busNumber && dI.stopName == dJ.stopName &&
    (let timeDiff := dI.minutesUntilDeparture - dJ.minutesUntilDeparture
     let timeDiff := if timeDiff < 0 then -timeDiff else timeDiff
     decide (timeDiff ≤ 1))

/-- The transport duplicate test (transport_api.cpp 249-253): same bus, same
stop, and time difference in [-2, 2]. -/
def transportIsDuplicate (dI dJ : BusDeparture) : Bool :=
  dI.busNumber == dJ.busNumber && dI.stopName == dJ.stopName &&
    (let timeDiff := dI.minutesUntilDeparture - dJ.minutesUntilDeparture
     decide (timeDiff ≥ -2) && decide (timeDiff ≤ 2))

/-- The compaction loop shared by both dedup passes: each candidate is kept
exactly when it does not duplicate an already-kept entry; kept entries stay
in order. -/
def dedupGo (isDup : BusDeparture → BusDeparture → Bool) :
    List BusDeparture → List BusDeparture → List BusDeparture
  | kept, [] => kept
  | kept, d :: rest =>
    if kept.any (fun j => isDup d j) then dedupGo isDup kept rest
    else dedupGo isDup (kept ++ [d]) rest

/-- Duplicate removal over the post-sort array (both clients). -/
def dedupDepartures (isDup : BusDeparture → BusDeparture → Bool)
    (l : List BusDeparture) : List BusDeparture :=
  dedupGo isDup [] l

theorem nextbusIsDuplicate_iff (a b : BusDeparture) :
    nextbusIsDuplicate a b = true ↔
      a.busNumber = b.busNumber ∧ a.stopName = b.stopName ∧
        (a.minutesUntilDeparture - b.minutesUntilDeparture).natAbs ≤ 1 := by
  simp only [nextbusIsDuplicate, Bool.and_eq_true, beq_iff_eq, decide_eq_true_eq]
  constructor
  · rintro ⟨⟨h1, h2⟩, h3⟩
    refine ⟨h1, h2, ?_⟩
    split at h3 <;> omega
  · rintro ⟨h1, h2, h3⟩
    refine ⟨⟨h1, h2⟩, ?_⟩
    split <;> omega

theorem transportIsDuplicate_iff (a b : BusDeparture) :
    transportIsDuplicate a b = true ↔
      a.busNumber = b.busNumber ∧ a.stopName = b.stopName ∧
        (a.minutesUntilDeparture - b.minutesUntilDeparture).natAbs ≤ 2 := by
  simp only [transportIsDuplicate, Bool.and_eq_true, beq_iff_eq, decide_eq_true_eq]
  constructor
  · rintro ⟨⟨h1, h2⟩, h3, h4⟩
    exact ⟨h1, h2, by omega⟩
  · rintro ⟨h1, h2, h3⟩
    exact ⟨⟨h1, h2⟩, by omega, by omega⟩

theorem dedupGo_eq_append (isDup : BusDeparture → BusDeparture → Bool) :
    ∀ (rest kept : List BusDeparture),
      ∃ s, dedupGo isDup kept rest = kept ++ s ∧ s.Sublist rest := by
  intro rest
  induction rest with
  | nil =>
    intro kept
    exact ⟨[], by simp [dedupGo], List.Sublist.refl _⟩
  | cons d rest ih =>
    intro kept
    simp only [dedupGo]
    split
    · obtain ⟨s, hs, hsub⟩ := ih kept
      exact ⟨s, hs, hsub.cons d⟩
    · obtain ⟨s, hs, hsub⟩ := ih (kept ++ [d])
      refine ⟨d :: s, ?_, hsub.cons₂ d⟩
      rw [hs, List.append_assoc]
      rfl

theorem dedupGo_pairwise (isDup : BusDeparture → BusDeparture → Bool) :
    ∀ (rest kept : List BusDeparture),
      kept.Pairwise (fun a b => isDup b a = false) →
      (dedupGo isDup kept rest).Pairwise (fun a b => isDup b a = false) := by
  intro rest
  induction rest with
  | nil => intro kept h; exact h
  | cons d rest ih =>
    intro kept h
    simp only [dedupGo]
    split
    · exact ih kept h
    · rename_i hany
      refine ih (kept ++ [d]) ?_
      rw [List.pairwise_append]
      refine ⟨h, List.pairwise_singleton _ _, ?_⟩
      intro a ha b hb
      rw [List.mem_singleton] at hb
      subst hb
      have := List.any_eq_false.mp (Bool.not_eq_true _ ▸ hany) a ha
      simpa using this

theorem dedupGo_justified (isDup : BusDeparture → BusDeparture → Bool) :
    ∀ (rest kept : List BusDeparture), ∀ d ∈ rest,
      d ∈ dedupGo isDup kept rest ∨
        ∃ e ∈ dedupGo isDup kept rest, isDup d e = true := by
  intro rest
  induction rest with
  | nil => intro kept d hd; cases hd
  | cons x rest ih =>
    intro kept d hd
    simp only [dedupGo]
    rcases List.mem_cons.mp hd with hdx | hdr
    · subst hdx
      split
      · rename_i hany
        obtain ⟨j, hj, hdup⟩ := List.any_eq_true.mp hany
        obtain ⟨s, hs, _⟩ := dedupGo_eq_append isDup rest kept
        right
        exact ⟨j, by rw [hs]; exact List.mem_append_left _ hj, hdup⟩
      · obtain ⟨s, hs, _⟩ := dedupGo_eq_append isDup rest (kept ++ [d])
        left
        rw [hs]
        exact List.mem_append_left _ (List.mem_append_right _ (List.mem_singleton_self d))
    · split
      · exact ih kept d hdr
      · exact ih (kept ++ [x]) d hdr

-- ===========================================================================
-- The per-stop fetch loops
-- ===========================================================================

/-- Outcome of one fetch loop: the raw candidates collected across the queried
stops, the number of provider calls made (one per queried stop, counted even
on HTTP failure), and the fetchedAllStops flag. -/
structure FetchOutcome where
  collected : List BusDeparture
  apiCalls : Nat
  fetchedAllStops : Bool
deriving DecidableEq, Repr

/-- The NextbusAPIClient::fetchDepartures stop loop (nextbus_api.cpp 175-252).
Each stop response is the candidate list its SIRI parser appends.  The loop
queries every stop unconditionally — the comment at line 248 reads
"Always fetch all stops - no early stopping" — and sets fetchedAllStops at
the last stop.  forceFetchAll only changes debug output, never control flow. -/
def nextbusFetchGo : List (List BusDeparture) → List BusDeparture → Nat → Bool →
    FetchOutcome
  | [], acc, calls, fAll => ⟨acc, calls, fAll⟩
  | r :: rest, acc, calls, _ =>
    nextbusFetchGo rest (acc ++ r) (calls + 1) rest.isEmpty

/-- The early-stop counting pass of TransportAPIClient::fetchDepartures
(transport_api.cpp 183-207): count entries that are catchable and do not
duplicate ANY earlier collected entry (same bus, same stop, within 2 min). -/
def tluGo : List BusDeparture → List BusDeparture → Nat
  | _, [] => 0
  | seen, d :: rest =>
    (if leaveIn d < 0 then 0
     else if seen.any (fun k => transportIsDuplicate d k) then 0
     else 1) + tluGo (seen ++ [d]) rest

/-- likelyUniqueCatchable, as counted at transport_api.cpp 183-207. -/
def likelyUniqueCatchable (l : List BusDeparture) : Nat :=
  tluGo [] l

/-- The TransportAPIClient::fetchDepartures stop loop (transport_api.cpp
126-224).  After a non-final stop, when at least TARGET_DEPARTURES = 5 raw
candidates are collected and likelyUniqueCatchable ≥ 6, the loop breaks with
fetchedAllStops = false; the last stop sets fetchedAllStops = true. -/
def transportFetchGo : List (List BusDeparture) → List BusDeparture → Nat →
    FetchOutcome
  | [], acc, calls => ⟨acc, calls, false⟩
  | r :: rest, acc, calls =>
    let acc2 := acc ++ r
    let calls2 := calls + 1
    if ¬ rest.isEmpty ∧ acc2.length ≥ 5 ∧ likelyUniqueCatchable acc2 ≥ 6 then
      ⟨acc2, calls2, false⟩
    else if rest.isEmpty then ⟨acc2, calls2, true⟩
    else transportFetchGo rest acc2 calls2

-- ===========================================================================
-- Post-processing: sort, dedup, catchability filter, truncation
-- ===========================================================================

/-- Nextbus post-collection pipeline (nextbus_api.cpp 254-334): sort by
leaveIn, remove duplicates (1-minute tolerance), keep catchable only
(leaveIn >= 0), sort again.  The count is set to the full filtered length:
line 332 reads "Always try to show 3 buses - return all catchable buses". -/
def nextbusPostProcess (collected : List BusDeparture) : List BusDeparture :=
  let sorted := leaveInSort collected
  let deduped := dedupDepartures nextbusIsDuplicate sorted
  let filtered := deduped.filter (fun d => 0 ≤ leaveIn d)
  leaveInSort filtered

/-- Transport post-collection pipeline (transport_api.cpp 226-282): sort,
dedup (2-minute tolerance), keep catchable only, then
count = min(filtered, 3). -/
def transportPostProcess (collected : List BusDeparture) : List BusDeparture :=
  let sorted := leaveInSort collected
  let deduped := dedupDepartures transportIsDuplicate sorted
  let filtered := deduped.filter (fun d => 0 ≤ leaveIn d)
  filtered.take 3

/-- The intermediate full filtered list of the transport pipeline, before the
min(filtered, 3) truncation. -/
def transportFilteredList (collected : List BusDeparture) : List BusDeparture :=
  (dedupDepartures transportIsDuplicate (leaveInSort collected)).filter
    (fun d => 0 ≤ leaveIn d)

/-- The intermediate full filtered list of the nextbus pipeline; the returned
result is this list re-sorted, with no truncation. -/
def nextbusFilteredList (collected : List BusDeparture) : List BusDeparture :=
  (dedupDepartures nextbusIsDuplicate (leaveInSort collected)).filter
    (fun d => 0 ≤ leaveIn d)

/-- Result of one full fetchDepartures run. -/
structure FetchResult where
  departures : List BusDeparture
  apiCalls : Nat
  fetchedAllStops : Bool
  success : Bool
deriving DecidableEq, Repr

/-- NextbusAPIClient::fetchDepartures (nextbus_api.cpp 146-369), over the
per-stop parsed responses of the direction's stop list. -/
def nextbusFetchDepartures (stopResponses : List (List BusDeparture))
    (forceFetchAll : Bool) : FetchResult :=
  let o := nextbusFetchGo stopResponses [] 0 false
  let r := nextbusPostProcess o.collected
  { departures := r, apiCalls := o.apiCalls, fetchedAllStops := o.fetchedAllStops,
    success := decide (0 < r.length) }

/-- TransportAPIClient::fetchDepartures (transport_api.cpp 99-289). -/
def transportFetchDepartures (stopResponses : List (List BusDeparture)) :
    FetchResult :=
  let o := transportFetchGo stopResponses [] 0
  let r := transportPostProcess o.collected
  { departures := r, apiCalls := o.apiCalls, fetchedAllStops := o.fetchedAllStops,
    success := decide (0 < r.length) }

/-- The render sink's card count (display.cpp 279): actualCount =
min(count, CARD_MAX_COUNT) with CARD_MAX_COUNT = 3. -/
def displayCardCount (count : Nat) : Nat :=
  min count 3

-- ===========================================================================
-- Clock input, quota ledger and adaptive polling (main.cpp 793-922)
-- ===========================================================================

/-- The fields of struct tm that the engine reads.  getLocalTime failing is
modelled by passing none for the clock. -/
structure LocalTm where
  tm_hour : Int
  tm_min : Int
  tm_mday : Nat
deriving DecidableEq, Repr

/-- The persisted API counter state (main.cpp globals apiCallsToday and
lastApiResetDay, persisted by saveApiCounter). -/
structure ApiState where
  apiCallsToday : Int
  lastApiResetDay : Nat
deriving DecidableEq, Repr

/-- resetApiCounterIfNewDay (main.cpp 808-822): when the clock is unavailable
the reset is skipped; otherwise, on a day-of-month mismatch the counter is
zeroed and the new day persisted. -/
def resetApiCounterIfNewDay (clock : Option LocalTm) (s : ApiState) : ApiState :=
  match clock with
  | none => s
  | some timeinfo =>
    if timeinfo.tm_mday ≠ s.lastApiResetDay then
      { apiCallsToday := 0, lastApiResetDay := timeinfo.tm_mday }
    else s

/-- isActiveHours (nextbus_api.cpp 82-89): defaults to active when the clock
is unavailable. -/
def nextbusIsActiveHours (clock : Option LocalTm) : Bool :=
  match clock with
  | none => true
  | some timeinfo =>
    decide (timeinfo.tm_hour ≥ ACTIVE_HOURS_START) &&
      decide (timeinfo.tm_hour < ACTIVE_HOURS_END)

/-- isActiveHours (transport_api.cpp 82-89): textually identical to the
nextbus variant. -/
def transportIsActiveHours (clock : Option LocalTm) : Bool :=
  match clock with
  | none => true
  | some timeinfo =>
    decide (timeinfo.tm_hour ≥ ACTIVE_HOURS_START) &&
      decide (timeinfo.tm_hour < ACTIVE_HOURS_END)

/-- calculateOptimalRefreshInterval (main.cpp 830-922).  Returns the next
polling interval in milliseconds.  All division operands are non-negative at
their use sites, so C integer division is Nat division on the toNat values. -/
def calculateOptimalRefreshInterval (clock : Option LocalTm) (s0 : ApiState)
    (currentDir : Direction) : Nat :=
  let s := resetApiCounterIfNewDay clock s0
  match clock with
  | none => BUS_DATA_REFRESH_INTERVAL_MS
  | some timeinfo =>
    let currentHour := timeinfo.tm_hour
    let remainingActiveHours : Int :=
      if currentHour < ACTIVE_HOURS_START then ACTIVE_HOURS_END - ACTIVE_HOURS_START
      else if currentHour ≥ ACTIVE_HOURS_END then 0
      else ACTIVE_HOURS_END - currentHour
    if remainingActiveHours ≤ 0 then BUS_DATA_REFRESH_INTERVAL_MS
    else
      let remainingCalls : Int := API_DAILY_LIMIT - s.apiCallsToday
      if remainingCalls ≤ 0 then 3600000
      else
        let maxRefreshes : Nat :=
          match currentDir with
          | Direction.TO_CHELTENHAM => (remainingCalls.toNat * 2) / 3
          | Direction.TO_CHURCHDOWN => remainingCalls.toNat
        if maxRefreshes ≤ 0 then 3600000
        else
          let remainingMs : Nat := remainingActiveHours.toNat * 3600000
          let optimalInterval := remainingMs / maxRefreshes
          if optimalInterval < 300000 then 300000
          else if optimalInterval > 3600000 then 3600000
          else if optimalInterval > 1800000 ∧ remainingCalls > 50 then 1800000
          else optimalInterval

-- ===========================================================================
-- Departure-time normalization under an unsynchronized clock
-- (nextbus_api.cpp 580-676, transport_api.cpp 414-453)
--
-- The string slicing that extracts hour and minute digits from the ISO-8601
-- or HH:MM payload is elided: timeFields is some (depHour, depMin) when the
-- payload yields time digits and none when no valid time string is present.
-- Only the minutesUntil output is modelled; the displayTime string output is
-- noted in comments.
-- ===========================================================================

/-- NextbusAPIClient::parseDepartureTime, minutesUntil output.  When
getLocalTime fails the code sets displayTime = "??:??" and minutesUntil = -1;
the comment at line 586 reads "Negative so it gets filtered out and we retry
when time syncs".  With a synced clock: departures more than 12 hours in the
past roll to the next day, then a second rollover applies below -60. -/
def nextbusParseDepartureTimeMinutes (clock : Option LocalTm)
    (timeFields : Option (Int × Int)) : Int :=
  match clock with
  | none => -1
  | some timeinfo =>
    match timeFields with
    | none => 999
    | some (depHour, depMin) =>
      let nowMinutes := timeinfo.tm_hour * 60 + timeinfo.tm_min
      let depMinutes := depHour * 60 + depMin
      let depMinutes := if depMinutes < nowMinutes - 720 then depMinutes + 24 * 60
        else depMinutes
      let minutesUntil := depMinutes - nowMinutes
      if minutesUntil < -60 then depMinutes + 24 * 60 - nowMinutes
      else minutesUntil

/-- TransportAPIClient::parseDepartureTime, minutesUntil output.  When
getLocalTime fails the code sets minutesUntil = 0.  With a synced clock the
rollover threshold is 60 minutes. -/
def transportParseDepartureTimeMinutes (clock : Option LocalTm)
    (timeFields : Option (Int × Int)) : Int :=
  match clock with
  | none => 0
  | some timeinfo =>
    match timeFields with
    | none => 0
    | some (depHour, depMin) =>
      let nowMinutes := timeinfo.tm_hour * 60 + timeinfo.tm_min
      let depMinutes := depHour * 60 + depMin
      let depMinutes := if depMinutes < nowMinutes - 60 then depMinutes + 24 * 60
        else depMinutes
      depMinutes - nowMinutes

/-- The already-departed check applied to every parsed entry
(nextbus_api.cpp 510: "if (minutesUntil < 0)" skip; transport_api.cpp 369
is the same condition). -/
def departedEntryAccepted (minutesUntil : Int) : Bool :=
  decide (0 ≤ minutesUntil)

-- ===========================================================================
-- DecayEngine: decrementDepartureCountdowns (main.cpp 704-787)
-- ===========================================================================

/-- The refetch decision taken at the end of decrementDepartureCountdowns.
immediateRefetch and rateLimitedRefetch both call
fetchAndDisplayBuses(true), i.e. forceFetchAll = true; deferred logs and
waits for the next scheduled poll. -/
inductive RefetchDecision where
  | noAction
  | immediateRefetch
  | rateLimitedRefetch
  | deferred
deriving DecidableEq, Repr

/-- Inputs of the refetch policy that live outside the departure list:
connectivity, active hours, and the millis() timestamps involved in the
5-minute cooldown.  millis() is monotone between wraparounds, so the
unsigned subtractions are modelled on Nat. -/
structure DecayEnv where
  wifiConnected : Bool
  activeHours : Bool
  now : Nat
  lastAutoRefetch : Nat
  lastBusUpdate : Nat
deriving DecidableEq, Repr

/-- MIN_AUTO_REFETCH_INTERVAL_MS (main.cpp 756): 5 minutes. -/
def MIN_AUTO_REFETCH_INTERVAL_MS : Nat := 300000

/-- The countdown update applied to one entry (main.cpp 710-714):
subtract the elapsed minutes, floored at 0. -/
def decayEntry (minutesElapsed : Nat) (d : BusDeparture) : BusDeparture :=
  let updated := d.minutesUntilDeparture - (minutesElapsed : Int)
  { d with minutesUntilDeparture := if updated < 0 then 0 else updated }

/-- decrementDepartureCountdowns (main.cpp 704-787): returns the surviving
departure list and the refetch decision.  The actual refetch call and
timestamp writes are performed by the caller side effects; the decision
captures which branch runs. -/
def decrementDepartureCountdowns (env : DecayEnv) (minutesElapsed : Nat)
    (departures : List BusDeparture) : List BusDeparture × RefetchDecision :=
  if minutesElapsed = 0 then (departures, RefetchDecision.noAction)
  else
    let updated := departures.map (decayEntry minutesElapsed)
    let needsRefetch := updated.any (fun d => decide (leaveIn d < 0))
    if needsRefetch then
      let filtered := updated.filter (fun d => 0 ≤ leaveIn d)
      let removed := updated.length - filtered.length
      if 0 < removed then
        if filtered.length = 0 ∧ env.wifiConnected ∧ env.activeHours then
          (filtered, RefetchDecision.immediateRefetch)
        else if filtered.length < 3 ∧ env.wifiConnected ∧ env.activeHours then
          if MIN_AUTO_REFETCH_INTERVAL_MS ≤ env.now - env.lastAutoRefetch ∧
              MIN_AUTO_REFETCH_INTERVAL_MS ≤ env.now - env.lastBusUpdate then
            (filtered, RefetchDecision.rateLimitedRefetch)
          else (filtered, RefetchDecision.deferred)
        else (filtered, RefetchDecision.noAction)
      else (filtered, RefetchDecision.noAction)
    else (updated, RefetchDecision.noAction)

-- ===========================================================================
-- Claim theorems
-- ===========================================================================

/-- C3: for every possible input state (any calls-made-today value including
at or above the daily limit, any current hour including outside the active
window, any direction, clock synchronized or not), the computed next polling
interval lies within [5 minutes, 60 minutes], i.e. [300000 ms, 3600000 ms]. -/
theorem C3_interval_always_within_bounds (clock : Option LocalTm) (s : ApiState)
    (dir : Direction) :
    300000 ≤ calculateOptimalRefreshInterval clock s dir ∧
      calculateOptimalRefreshInterval clock s dir ≤ 3600000 := by
  cases clock with
  | none =>
    simp [calculateOptimalRefreshInterval, BUS_DATA_REFRESH_INTERVAL_MS]
  | some timeinfo =>
    cases dir <;>
      (simp only [calculateOptimalRefreshInterval, BUS_DATA_REFRESH_INTERVAL_MS]
       repeat' split) <;>
      omega

/-- C9: resetIfNewLocalDay is idempotent: a second call within the same local
calendar day changes neither the calls-made-today counter nor the persisted
last-reset day after the first call has run. -/
theorem C9_reset_idempotent (t1 t2 : LocalTm) (s : ApiState)
    (hday : t2.tm_mday = t1.tm_mday) :
    resetApiCounterIfNewDay (some t2) (resetApiCounterIfNewDay (some t1) s) =
      resetApiCounterIfNewDay (some t1) s := by
  simp only [resetApiCounterIfNewDay]
  split
  · simp [hday]
  · rename_i h1
    rw [not_not] at h1
    simp [hday, h1]

/-- Witness for C9 at a concrete state: day 7 twice, starting from 42 calls
recorded under day 3. -/
theorem C9_reset_idempotent_witness :
    resetApiCounterIfNewDay (some { tm_hour := 9, tm_min := 30, tm_mday := 7 })
        (resetApiCounterIfNewDay (some { tm_hour := 8, tm_min := 0, tm_mday := 7 })
          { apiCallsToday := 42, lastApiResetDay := 3 }) =
      resetApiCounterIfNewDay (some { tm_hour := 8, tm_min := 0, tm_mday := 7 })
        { apiCallsToday := 42, lastApiResetDay := 3 } :=
  C9_reset_idempotent { tm_hour := 8, tm_min := 0, tm_mday := 7 }
    { tm_hour := 9, tm_min := 30, tm_mday := 7 }
    { apiCallsToday := 42, lastApiResetDay := 3 } (by decide)

/-- C10: when the local clock is unavailable, isActiveHours() returns true in
both API clients and the scheduler returns the default 10-minute
(600000 ms) refresh interval, so polling continues at the default cadence. -/
theorem C10_clock_unavailable_defaults_to_active (s : ApiState) (dir : Direction) :
    nextbusIsActiveHours none = true ∧
      transportIsActiveHours none = true ∧
      calculateOptimalRefreshInterval none s dir = BUS_DATA_REFRESH_INTERVAL_MS ∧
      BUS_DATA_REFRESH_INTERVAL_MS = 10 * 60000 :=
  ⟨rfl, rfl, rfl, rfl⟩

theorem mem_filter_catchable {d : BusDeparture} {l : List BusDeparture}
    (h : d ∈ l.filter (fun d => 0 ≤ leaveIn d)) : 0 ≤ leaveIn d := by
  have := List.of_mem_filter h
  simpa using this

/-- C1: every Departure contained in the result array when fetchDepartures
returns (for either API variant, any provider responses) satisfies
minutesUntilDeparture - walkingTimeMinutes >= 0: no uncatchable departure
survives the final filter. -/
theorem C1_result_departures_catchable (stopResponses : List (List BusDeparture))
    (forceFetchAll : Bool) :
    (∀ d ∈ (nextbusFetchDepartures stopResponses forceFetchAll).departures,
        0 ≤ d.minutesUntilDeparture - d.walkingTimeMinutes) ∧
      (∀ d ∈ (transportFetchDepartures stopResponses).departures,
        0 ≤ d.minutesUntilDeparture - d.walkingTimeMinutes) := by
  constructor
  · intro d hd
    have hd2 : d ∈ nextbusPostProcess
        (nextbusFetchGo stopResponses [] 0 false).collected := hd
    have hd3 := mem_leaveInSort hd2
    exact mem_filter_catchable hd3
  · intro d hd
    have hd2 : d ∈ transportPostProcess
        (transportFetchGo stopResponses [] 0).collected := hd
    have hd3 := List.mem_of_mem_take hd2
    exact mem_filter_catchable hd3

/-- Concrete departure records used in witnesses and counterexamples. -/
def mkDep (route stop : String) (minutes walk : Int) : BusDeparture :=
  { busNumber := route, stopName := stop, destination := "", departureTime := "",
    minutesUntilDeparture := minutes, walkingTimeMinutes := walk, isLive := false,
    statusText := "" }

/-- Witness for C1: a single-stop response with one catchable bus; the bus is
in the returned result and its leave-in time is non-negative. -/
theorem C1_result_departures_catchable_witness :
    0 ≤ (mkDep "94" "L" 20 10).minutesUntilDeparture -
        (mkDep "94" "L" 20 10).walkingTimeMinutes :=
  (C1_result_departures_catchable [[mkDep "94" "L" 20 10]] false).1
    (mkDep "94" "L" 20 10) (by decide)

/-- C4: after deduplication in fetchDepartures, no two distinct kept
Departures share route id and stop with an absolute minutes-until-departure
difference within the tolerance (1 minute for the nextbus variant, 2 minutes
for the transport variant); the kept list is a sublist of the post-sort
input (the first occurrence is the one kept), and every discarded candidate
duplicates some kept entry. -/
theorem C4_dedup_invariant (collected : List BusDeparture) :
    ((dedupDepartures nextbusIsDuplicate (leaveInSort collected)).Pairwise
        (fun a b => ¬(a.busNumber = b.busNumber ∧ a.stopName = b.stopName ∧
          (a.minutesUntilDeparture - b.minutesUntilDeparture).natAbs ≤ 1)) ∧
      (dedupDepartures nextbusIsDuplicate (leaveInSort collected)).Sublist
        (leaveInSort collected) ∧
      (∀ d ∈ leaveInSort collected,
        d ∈ dedupDepartures nextbusIsDuplicate (leaveInSort collected) ∨
          ∃ e ∈ dedupDepartures nextbusIsDuplicate (leaveInSort collected),
            nextbusIsDuplicate d e = true)) ∧
    ((dedupDepartures transportIsDuplicate (leaveInSort collected)).Pairwise
        (fun a b => ¬(a.busNumber = b.busNumber ∧ a.stopName = b.stopName ∧
          (a.minutesUntilDeparture - b.minutesUntilDeparture).natAbs ≤ 2)) ∧
      (dedupDepartures transportIsDuplicate (leaveInSort collected)).Sublist
        (leaveInSort collected) ∧
      (∀ d ∈ leaveInSort collected,
        d ∈ dedupDepartures transportIsDuplicate (leaveInSort collected) ∨
          ∃ e ∈ dedupDepartures transportIsDuplicate (leaveInSort collected),
            transportIsDuplicate d e = true)) := by
  constructor
  · refine ⟨?_, ?_, ?_⟩
    · have hP := dedupGo_pairwise nextbusIsDuplicate (leaveInSort collected) []
        List.Pairwise.nil
      refine hP.imp ?_
      intro a b hab hcontra
      have : nextbusIsDuplicate b a = true :=
        (nextbusIsDuplicate_iff b a).mpr
          ⟨hcontra.1.symm, hcontra.2.1.symm, by omega⟩
      rw [hab] at this
      cases this
    · obtain ⟨s, hs, hsub⟩ :=
        dedupGo_eq_append nextbusIsDuplicate (leaveInSort collected) []
      have : dedupDepartures nextbusIsDuplicate (leaveInSort collected) = s := by
        simpa [dedupDepartures] using hs
      rw [this]
      exact hsub
    · exact dedupGo_justified nextbusIsDuplicate (leaveInSort collected) []
  · refine ⟨?_, ?_, ?_⟩
    · have hP := dedupGo_pairwise transportIsDuplicate (leaveInSort collected) []
        List.Pairwise.nil
      refine hP.imp ?_
      intro a b hab hcontra
      have : transportIsDuplicate b a = true :=
        (transportIsDuplicate_iff b a).mpr
          ⟨hcontra.1.symm, hcontra.2.1.symm, by omega⟩
      rw [hab] at this
      cases this
    · obtain ⟨s, hs, hsub⟩ :=
        dedupGo_eq_append transportIsDuplicate (leaveInSort collected) []
      have : dedupDepartures transportIsDuplicate (leaveInSort collected) = s := by
        simpa [dedupDepartures] using hs
      rw [this]
      exact hsub
    · exact dedupGo_justified transportIsDuplicate (leaveInSort collected) []

/-- Witness for C4: spec Scenario E — two route-94 candidates from the same
stop 14 and 15 minutes away deduplicate to one entry, and the kept entry
accounts for the discarded one. -/
theorem C4_dedup_invariant_witness :
    mkDep "94" "H" 15 5 ∈
        dedupDepartures nextbusIsDuplicate
          (leaveInSort [mkDep "94" "H" 14 5, mkDep "94" "H" 15 5,
            mkDep "94" "H" 40 5]) ∨
      ∃ e ∈ dedupDepartures nextbusIsDuplicate
          (leaveInSort [mkDep "94" "H" 14 5, mkDep "94" "H" 15 5,
            mkDep "94" "H" 40 5]),
        nextbusIsDuplicate (mkDep "94" "H" 15 5) e = true :=
  ((C4_dedup_invariant [mkDep "94" "H" 14 5, mkDep "94" "H" 15 5,
      mkDep "94" "H" 40 5]).1).2.2 (mkDep "94" "H" 15 5) (by decide)

theorem nextbusFetchGo_apiCalls :
    ∀ (rs : List (List BusDeparture)) (acc : List BusDeparture) (calls : Nat)
      (fAll : Bool), (nextbusFetchGo rs acc calls fAll).apiCalls = calls + rs.length := by
  intro rs
  induction rs with
  | nil => intro acc calls fAll; rfl
  | cons r rest ih =>
    intro acc calls fAll
    simp only [nextbusFetchGo, ih, List.length_cons]
    omega

/-- Spec Scenario A first-stop response: six catchable, pairwise-distinct
candidates (routes 94-98 plus a second 94 far apart in time, all from the
closest stop, all with leaveIn >= 0). -/
def scenarioA_stop1 : List BusDeparture :=
  [mkDep "94" "Churchdown Library" 20 10, mkDep "95" "Churchdown Library" 24 10,
   mkDep "96" "Churchdown Library" 28 10, mkDep "97" "Churchdown Library" 32 10,
   mkDep "98" "Churchdown Library" 36 10, mkDep "94" "Churchdown Library" 60 10]

/-- Spec Scenario A responses: a 3-stop direction whose first stop yields the
six candidates above. -/
def scenarioA_responses : List (List BusDeparture) :=
  [scenarioA_stop1, [], []]

/-- C2 counterexample: in the Nextbus variant (the active one under
USE_NEXTBUS_API), a 3-stop direction whose first stop yields 6 catchable
pairwise-distinct candidates is still queried in full with forceFetchAll
false: the provider-call count is 3, not 1 — there is no early stop. -/
theorem C2_counterexample_nextbus_no_early_stop :
    likelyUniqueCatchable scenarioA_stop1 = 6 ∧
      scenarioA_responses.length = 3 ∧
      (nextbusFetchDepartures scenarioA_responses false).apiCalls = 3 ∧
      (nextbusFetchDepartures scenarioA_responses false).apiCalls ≠ 1 := by
  refine ⟨by decide, rfl, ?_, ?_⟩
  · show (nextbusFetchGo scenarioA_responses [] 0 false).apiCalls = 3
    rw [nextbusFetchGo_apiCalls]
    rfl
  · show ¬((nextbusFetchGo scenarioA_responses [] 0 false).apiCalls = 1)
    rw [nextbusFetchGo_apiCalls]
    decide

/-- C2 amended: only the Transport variant stops early — after a non-final
stop it stops querying once at least 5 raw candidates are collected of which
at least 6 are catchable and pairwise-distinct, so in Scenario A its
provider-call count is 1 and stops 2-3 are not queried; the Nextbus variant
never stops early and its provider-call count always equals the number of
configured stops. -/
theorem C2_early_stop_amended :
    (∀ (stopResponses : List (List BusDeparture)) (forceFetchAll : Bool),
        (nextbusFetchDepartures stopResponses forceFetchAll).apiCalls =
          stopResponses.length) ∧
      (transportFetchDepartures scenarioA_responses).apiCalls = 1 ∧
      (transportFetchDepartures scenarioA_responses).fetchedAllStops = false ∧
      likelyUniqueCatchable scenarioA_stop1 = 6 := by
  refine ⟨?_, ?_, ?_, by decide⟩
  · intro stopResponses forceFetchAll
    show (nextbusFetchGo stopResponses [] 0 false).apiCalls = stopResponses.length
    rw [nextbusFetchGo_apiCalls]
    omega
  · decide
  · decide

/-- Four catchable pairwise-distinct candidates from one stop, used to show
the Nextbus result is not truncated to the display capacity. -/
def fourDistinctResponses : List (List BusDeparture) :=
  [[mkDep "94" "L" 20 5, mkDep "95" "L" 25 5, mkDep "96" "L" 30 5,
    mkDep "97" "L" 35 5]]

/-- C7 counterexample: the Nextbus variant (the active one) returns all four
catchable departures — the returned result is not truncated to the display
capacity of 3. -/
theorem C7_counterexample_no_truncation :
    (nextbusFetchDepartures fourDistinctResponses false).departures.length = 4 ∧
      ¬((nextbusFetchDepartures fourDistinctResponses false).departures.length ≤ 3) := by
  refine ⟨by decide, by decide⟩

/-- C7 amended: the Nextbus variant returns the full filtered and sorted
catchable list with no truncation — its result length always equals the
length of the filtered list, and truncation to the display capacity of 3
happens in the render sink (min(count, 3)), so decay and refetch decisions
see every catchable entry; the Transport variant instead truncates its
returned result to the first three filtered entries, retaining nothing
beyond them. -/
theorem C7_truncation_amended :
    (∀ (rs : List (List BusDeparture)) (f : Bool),
        (nextbusFetchDepartures rs f).departures.length =
          (nextbusFilteredList (nextbusFetchGo rs [] 0 false).collected).length) ∧
      (∀ rs : List (List BusDeparture),
        (transportFetchDepartures rs).departures =
          (transportFilteredList (transportFetchGo rs [] 0).collected).take 3) ∧
      (∀ n, displayCardCount n = min n 3) := by
  refine ⟨?_, fun rs => rfl, fun n => rfl⟩
  intro rs f
  show (leaveInSort (nextbusFilteredList (nextbusFetchGo rs [] 0 false).collected)).length = _
  exact leaveInSort_length _

/-- C6 counterexample: with the clock never synchronized, the Nextbus time
normalizer returns minutesUntil = -1 for an entry 15:30, and the parser's
already-departed check then discards the entry — it does not receive a safe
do-not-discard estimate. -/
theorem C6_counterexample_unsynced_discards :
    nextbusParseDepartureTimeMinutes none (some (15, 30)) = -1 ∧
      departedEntryAccepted
        (nextbusParseDepartureTimeMinutes none (some (15, 30))) = false := by
  exact ⟨rfl, rfl⟩

/-- C6 amended: when the local clock has never synchronized, the Nextbus
normalizer assigns minutesUntil = -1 to every entry so the already-departed
check discards it (deliberately, per the source comment, so the entry is
retried once time syncs), and the Transport normalizer assigns
minutesUntil = 0, which passes the already-departed check but leaves the
entry to be dropped by the catchability filter at any stop with positive
walking time; neither variant gives entries a safe unknown do-not-discard
estimate, so time-dependent filtering is not disabled. -/
theorem C6_unsynced_clock_amended (timeFields : Option (Int × Int)) :
    nextbusParseDepartureTimeMinutes none timeFields = -1 ∧
      departedEntryAccepted
        (nextbusParseDepartureTimeMinutes none timeFields) = false ∧
      transportParseDepartureTimeMinutes none timeFields = 0 ∧
      departedEntryAccepted
        (transportParseDepartureTimeMinutes none timeFields) = true ∧
      (∀ stop walk, leaveIn (mkDep "94" stop
          (transportParseDepartureTimeMinutes none timeFields) walk) = -walk) := by
  refine ⟨rfl, rfl, rfl, rfl, ?_⟩
  intro stop walk
  show (0 : Int) - walk = -walk
  omega

theorem filter_length_lt_of_dropped {p : BusDeparture → Bool} :
    ∀ l : List BusDeparture, (∃ x ∈ l, p x = false) →
      (l.filter p).length < l.length := by
  intro l
  induction l with
  | nil => rintro ⟨x, hx, _⟩; cases hx
  | cons a l ih =>
    rintro ⟨x, hx, hpx⟩
    rcases List.mem_cons.mp hx with hxa | hxl
    · subst hxa
      simp only [List.filter_cons, hpx]
      exact Nat.lt_succ_of_le (List.length_filter_le p l)
    · cases hpa : p a with
      | true =>
        simp only [List.filter_cons, hpa, List.length_cons]
        exact Nat.succ_lt_succ (ih ⟨x, hxl, hpx⟩)
      | false =>
        simp only [List.filter_cons, hpa]
        exact Nat.lt_succ_of_le (List.length_filter_le p l)

theorem decrement_result_of_removal (env : DecayEnv) (m : Nat)
    (l : List BusDeparture) (hm : m ≠ 0)
    (hany : (l.map (decayEntry m)).any (fun d => decide (leaveIn d < 0)) = true) :
    decrementDepartureCountdowns env m l =
      ((l.map (decayEntry m)).filter (fun d => 0 ≤ leaveIn d),
        if ((l.map (decayEntry m)).filter (fun d => 0 ≤ leaveIn d)).length = 0 ∧
            env.wifiConnected = true ∧ env.activeHours = true then
          RefetchDecision.immediateRefetch
        else if ((l.map (decayEntry m)).filter (fun d => 0 ≤ leaveIn d)).length < 3 ∧
            env.wifiConnected = true ∧ env.activeHours = true then
          if MIN_AUTO_REFETCH_INTERVAL_MS ≤ env.now - env.lastAutoRefetch ∧
              MIN_AUTO_REFETCH_INTERVAL_MS ≤ env.now - env.lastBusUpdate then
            RefetchDecision.rateLimitedRefetch
          else RefetchDecision.deferred
        else RefetchDecision.noAction) := by
  obtain ⟨x, hxmem, hxlt⟩ := List.any_eq_true.mp hany
  have hpx : (fun d => decide (0 ≤ leaveIn d)) x = false := by
    have := of_decide_eq_true hxlt
    simp only [decide_eq_false_iff_not]
    omega
  have hlt := @filter_length_lt_of_dropped (fun d => decide (0 ≤ leaveIn d))
    (l.map (decayEntry m)) ⟨x, hxmem, hpx⟩
  simp only [decrementDepartureCountdowns, if_neg hm]
  rw [if_pos hany, if_pos (Nat.sub_pos_of_lt hlt)]
  repeat' split
  all_goals rfl

/-- C5: when decay removes entries (some updated entry has leaveIn < 0) while
connected and in active hours: a resulting catchable count of 0 triggers an
immediate refetch (forceFetchAll = true) with no cooldown check; a nonzero
count below the display capacity of 3 triggers a refetch exactly when both
5-minute cooldowns (since the last auto-refetch and since the last fetch)
have elapsed, and is otherwise deferred to the next scheduled poll — and a
rate-limited refetch never fires inside the cooldown. -/
theorem C5_decay_refetch_policy (env : DecayEnv) (m : Nat) (l : List BusDeparture)
    (hm : m ≠ 0) (hw : env.wifiConnected = true) (ha : env.activeHours = true)
    (hany : (l.map (decayEntry m)).any (fun d => decide (leaveIn d < 0)) = true) :
    ((decrementDepartureCountdowns env m l).1.length = 0 →
        (decrementDepartureCountdowns env m l).2 =
          RefetchDecision.immediateRefetch) ∧
      (0 < (decrementDepartureCountdowns env m l).1.length →
        (decrementDepartureCountdowns env m l).1.length < 3 →
        ((MIN_AUTO_REFETCH_INTERVAL_MS ≤ env.now - env.lastAutoRefetch ∧
            MIN_AUTO_REFETCH_INTERVAL_MS ≤ env.now - env.lastBusUpdate) →
            (decrementDepartureCountdowns env m l).2 =
              RefetchDecision.rateLimitedRefetch) ∧
          (¬(MIN_AUTO_REFETCH_INTERVAL_MS ≤ env.now - env.lastAutoRefetch ∧
              MIN_AUTO_REFETCH_INTERVAL_MS ≤ env.now - env.lastBusUpdate) →
            (decrementDepartureCountdowns env m l).2 =
              RefetchDecision.deferred)) ∧
      ((decrementDepartureCountdowns env m l).2 =
          RefetchDecision.rateLimitedRefetch →
        MIN_AUTO_REFETCH_INTERVAL_MS ≤ env.now - env.lastAutoRefetch ∧
          MIN_AUTO_REFETCH_INTERVAL_MS ≤ env.now - env.lastBusUpdate) := by
  rw [decrement_result_of_removal env m l hm hany]
  dsimp only
  refine ⟨?_, ?_, ?_⟩
  · intro h0
    show (if _ then _ else _) = _
    rw [if_pos ⟨h0, hw, ha⟩]
  · intro h1 h2
    have hnot0 : ¬(((l.map (decayEntry m)).filter
        (fun d => 0 ≤ leaveIn d)).length = 0 ∧
          env.wifiConnected = true ∧ env.activeHours = true) := by
      intro hc
      exact absurd hc.1 (by omega)
    constructor
    · intro hcool
      show (if _ then _ else _) = _
      rw [if_neg hnot0, if_pos ⟨h2, hw, ha⟩, if_pos hcool]
    · intro hcool
      show (if _ then _ else _) = _
      rw [if_neg hnot0, if_pos ⟨h2, hw, ha⟩, if_neg hcool]
  · intro hrl
    by_cases h0 : ((l.map (decayEntry m)).filter
        (fun d => 0 ≤ leaveIn d)).length = 0 ∧
          env.wifiConnected = true ∧ env.activeHours = true
    · rw [if_pos h0] at hrl
      simp at hrl
    · rw [if_neg h0] at hrl
      by_cases h3 : ((l.map (decayEntry m)).filter
          (fun d => 0 ≤ leaveIn d)).length < 3 ∧
            env.wifiConnected = true ∧ env.activeHours = true
      · rw [if_pos h3] at hrl
        by_cases hcool : MIN_AUTO_REFETCH_INTERVAL_MS ≤ env.now - env.lastAutoRefetch ∧
            MIN_AUTO_REFETCH_INTERVAL_MS ≤ env.now - env.lastBusUpdate
        · exact hcool
        · rw [if_neg hcool] at hrl
          simp at hrl
      · rw [if_neg h3] at hrl
        simp at hrl

/-- Witness for C5: spec Scenario C — three catchable departures with
leaveIn [2, 10, 25]; tick(3) removes the first and leaves two, wifi is
connected, active hours hold, and both cooldowns have elapsed, so the
decision is the rate-limited (not immediate) refetch. -/
theorem C5_decay_refetch_policy_witness :
    (decrementDepartureCountdowns
        { wifiConnected := true, activeHours := true, now := 1000000,
          lastAutoRefetch := 0, lastBusUpdate := 0 } 3
        [mkDep "94" "L" 12 10, mkDep "96" "L" 20 10, mkDep "97" "L" 35 10]).2 =
      RefetchDecision.rateLimitedRefetch :=
  (((C5_decay_refetch_policy
      { wifiConnected := true, activeHours := true, now := 1000000,
        lastAutoRefetch := 0, lastBusUpdate := 0 } 3
      [mkDep "94" "L" 12 10, mkDep "96" "L" 20 10, mkDep "97" "L" 35 10]
      (by decide) rfl rfl (by decide)).2.1 (by decide) (by decide)).1 (by decide))

theorem decayEntry_comp (m : Nat) (d : BusDeparture) :
    decayEntry 1 (decayEntry m d) = decayEntry (m + 1) d := by
  cases d
  simp only [decayEntry, BusDeparture.mk.injEq, and_true, true_and]
  split_ifs <;> omega

theorem decayEntry_leaveIn_mono (m : Nat) (d : BusDeparture)
    (h : leaveIn (decayEntry m d) < 0) : leaveIn (decayEntry (m + 1) d) < 0 := by
  cases d
  simp only [decayEntry, leaveIn] at h ⊢
  split at h <;> split <;> omega

theorem decrement_fst (env : DecayEnv) (m : Nat) (t : List BusDeparture)
    (hm : m ≠ 0) :
    (decrementDepartureCountdowns env m t).1 =
      (t.map (decayEntry m)).filter (fun d => 0 ≤ leaveIn d) := by
  by_cases hany : (t.map (decayEntry m)).any (fun d => decide (leaveIn d < 0)) = true
  · rw [decrement_result_of_removal env m t hm hany]
  · rw [Bool.not_eq_true] at hany
    simp only [decrementDepartureCountdowns, if_neg hm, hany]
    have hall : ∀ d ∈ t.map (decayEntry m), decide (0 ≤ leaveIn d) = true := by
      intro d hd
      have hne := List.any_eq_false.mp hany d hd
      simp only [decide_eq_true_eq] at hne ⊢
      omega
    exact (List.filter_eq_self.mpr hall).symm

theorem decay_step_filter (m : Nat) :
    ∀ l : List BusDeparture,
      (((l.map (decayEntry m)).filter (fun d => 0 ≤ leaveIn d)).map
          (decayEntry 1)).filter (fun d => 0 ≤ leaveIn d) =
        (l.map (decayEntry (m + 1))).filter (fun d => 0 ≤ leaveIn d) := by
  intro l
  induction l with
  | nil => rfl
  | cons d l ih =>
    simp only [List.map_cons, List.filter_cons]
    by_cases hgood : decide (0 ≤ leaveIn (decayEntry m d)) = true
    · rw [if_pos hgood]
      simp only [List.map_cons, List.filter_cons, decayEntry_comp]
      by_cases hgood2 : decide (0 ≤ leaveIn (decayEntry (m + 1) d)) = true
      · rw [if_pos hgood2, if_pos hgood2, ih]
      · rw [if_neg hgood2, if_neg hgood2, ih]
    · rw [if_neg hgood]
      have hgood2 : ¬(decide (0 ≤ leaveIn (decayEntry (m + 1) d)) = true) := by
        simp only [decide_eq_true_eq] at hgood ⊢
        have := decayEntry_leaveIn_mono m d (by omega)
        omega
      rw [if_neg hgood2, ih]

/-- C8: applying the decay step with elapsedMinutes = 0 leaves the live
departure set unchanged, and applying it once with elapsedMinutes = N yields
the same final departure set as applying it N times with elapsedMinutes = 1
(minutesUntilDeparture floored at 0, entries whose leaveIn drops below 0
removed). -/
theorem C8_decay_iteration (env : DecayEnv) (l : List BusDeparture) (N : Nat) :
    (decrementDepartureCountdowns env 0 l).1 = l ∧
      (decrementDepartureCountdowns env N l).1 =
        (fun t => (decrementDepartureCountdowns env 1 t).1)^[N] l := by
  constructor
  · rfl
  · induction N with
    | zero => rfl
    | succ n ih =>
      rw [Function.iterate_succ_apply', ← ih]
      cases n with
      | zero => rfl
      | succ k =>
        rw [decrement_fst env (k + 1 + 1) l (by omega),
          decrement_fst env 1 _ (by omega),
          decrement_fst env (k + 1) l (by omega)]
        exact (decay_step_filter (k + 1) l).symm
